import Mathlib

/-!
Shallow embedding of the EEPROM-Filesystem desktop client (`gui.py`).

Strings are modelled as `List Char`, raw serial bytes as `List Nat`
(all protocol traffic is ASCII, where a character's codepoint is its byte).
Stateful serial code is modelled by explicit state passing: each operation
takes the client state and the bytes the device would deliver inside the
read window, and returns its result together with the list of transport
accesses it performed.  GUI rendering (tree/editor widgets, status labels)
is out of scope and not modelled; the parsed listing, the text placed in
the editor, and the wire line sent stand in for those effects.
-/

set_option autoImplicit false

namespace EEPROMFS

/-- `FILE_COUNT = 3` from the configuration block of `gui.py`. -/
def FILE_COUNT : Nat := 3

/-- One pass of Python `str.replace(old, new)` for a single-character
pattern `old` (the only shape `gui.py` uses): every occurrence of `old`
is replaced by the character list `new`, scanning left to right. -/
def replace1 (old : Char) (new : List Char) : List Char → List Char
  | [] => []
  | c :: rest => (if c = old then new else [c]) ++ replace1 old new rest

/-- `escape_for_arduino` from `gui.py`:
`s.replace('\\', '\\\\').replace('\n', '\\n').replace('\r', '\\r')`,
i.e. backslash is doubled first, then line feed and carriage return are
turned into the two-character sequences backslash-n and backslash-r. -/
def escape_for_arduino (s : List Char) : List Char :=
  replace1 '\r' ['\\', 'r'] (replace1 '\n' ['\\', 'n'] (replace1 '\\' ['\\', '\\'] s))

/-- `unescape_from_arduino` from `gui.py`: left-to-right scan; a backslash
followed by another character decodes `n` to line feed, `r` to carriage
return, `\` to backslash, any other following character to itself; a
character that is not a backslash, or a backslash in final position
(`i + 1 < len(s)` fails), is emitted as is. -/
def unescape_from_arduino : List Char → List Char
  | [] => []
  | [c] => [c]
  | c :: nxt :: rest =>
    if c = '\\' then
      (if nxt = 'n' then '\n'
       else if nxt = 'r' then '\r'
       else if nxt = '\\' then '\\'
       else nxt) :: unescape_from_arduino rest
    else
      c :: unescape_from_arduino (nxt :: rest)

/-- `bytes_to_text` from `gui.py`: keep a byte as its character when
`32 <= x <= 126` or `x == 10`, drop it otherwise, and join the results. -/
def bytes_to_text (b : List Nat) : List Char :=
  (b.map (fun x => if (32 ≤ x ∧ x ≤ 126) ∨ x = 10 then [Char.ofNat x] else [])).flatten

/-- The characters Python `str.strip()` / `str.split()` treat as ASCII
whitespace: space, tab, line feed, carriage return, vertical tab, form feed. -/
def isPySpace (c : Char) : Bool :=
  c == ' ' || c == '\t' || c == '\n' || c == '\r' || c == '\x0b' || c == '\x0c'

/-- Python `str.strip()`: drop leading and trailing whitespace. -/
def pystrip (s : List Char) : List Char :=
  ((s.dropWhile isPySpace).reverse.dropWhile isPySpace).reverse

/-- Worker for `splitlines`, carrying the current line reversed. -/
def splitlinesAux : List Char → List Char → List (List Char)
  | [], acc => if acc.isEmpty then [] else [acc.reverse]
  | '\r' :: '\n' :: rest, acc => acc.reverse :: splitlinesAux rest []
  | '\r' :: rest, acc => acc.reverse :: splitlinesAux rest []
  | '\n' :: rest, acc => acc.reverse :: splitlinesAux rest []
  | c :: rest, acc => splitlinesAux rest (c :: acc)

/-- Python `str.splitlines()` over the line boundaries that can occur here:
`\n`, `\r`, `\r\n` (all other Python boundary characters are control bytes
that `bytes_to_text` has already dropped).  No trailing empty line is
produced for a trailing terminator. -/
def splitlines (s : List Char) : List (List Char) :=
  splitlinesAux s []

/-- Python `s.startswith(pat)`. -/
def startswith : List Char → List Char → Bool
  | _, [] => true
  | [], _ :: _ => false
  | c :: s, p :: ps => c == p && startswith s ps

/-- Python `s.split(sep, 1)` for a one-character separator, as the pair of
parts; `none` when the separator does not occur (in Python the list then
has no index 1, so subscripting it raises). -/
def splitFirst (sep : Char) : List Char → Option (List Char × List Char)
  | [] => none
  | c :: rest =>
    if c = sep then some ([], rest)
    else (splitFirst sep rest).map (fun p => (c :: p.1, p.2))

/-- Python `s.split(sep)[0]` for a one-character separator: the part
before the first occurrence (the whole string when absent). -/
def takeUntil (sep : Char) (s : List Char) : List Char :=
  s.takeWhile (fun c => c != sep)

/-- Python `s.split()[0]`: first maximal run of non-whitespace; `none`
when the string holds only whitespace (Python raises on the subscript). -/
def firstToken (s : List Char) : Option (List Char) :=
  let t := (s.dropWhile isPySpace).takeWhile (fun c => !(isPySpace c))
  if t.isEmpty then none else some t

/-- Decimal value of a digit string. -/
def digitsToNat (s : List Char) : Nat :=
  s.foldl (fun acc c => acc * 10 + (c.toNat - 48)) 0

/-- Nonempty all-digit strings parse; anything else fails. -/
def parseDigits (s : List Char) : Option Nat :=
  if s.isEmpty then none
  else if s.all Char.isDigit then some (digitsToNat s) else none

/-- Python `int(tok)` for a whitespace-free token as produced by
`str.split()`: an optional sign followed by at least one digit
(Python's extra allowance for underscore digit separators is not a shape
the device's `name (<size> ...)` lines produce and is not modelled). -/
def parseInt : List Char → Option Int
  | '-' :: rest => (parseDigits rest).map (fun n => -(n : Int))
  | '+' :: rest => (parseDigits rest).map (fun n => (n : Int))
  | s => (parseDigits s).map (fun n => (n : Int))

/-- Decimal rendering of a natural number, as Python `str(i)`. -/
def natRepr (n : Nat) : List Char :=
  (toString n).toList

/-- One row of the listing view: slot index, display name, size. -/
structure FileEntry where
  index : Nat
  name : List Char
  size : Int
deriving DecidableEq

/-- The pattern `f"{idx}:"` a listing line for slot `idx` must start with. -/
def idxPat (idx : Nat) : List Char :=
  natRepr idx ++ [':']

/-- The try-block of `refresh_files` on one listing line:
`name = ln.split(':',1)[1].split('(')[0].strip()` and
`s = int(ln.split('(')[1].split()[0])`; `none` when any step raises
(missing `'('`, no token after it, or a non-integer token), in which case
Python's `except: pass` leaves the defaults in place. -/
def tryParseLine (ln : List Char) : Option (List Char × Int) := do
  let p1 ← splitFirst ':' ln
  let name := pystrip (takeUntil '(' p1.2)
  let p2 ← splitFirst '(' ln
  let tok ← firstToken (takeUntil '(' p2.2)
  let sz ← parseInt tok
  pure (name, sz)

/-- The per-slot loop body of `refresh_files`: the first line starting
with `f"{idx}:"` is tried (and the scan then breaks regardless of
success); a missing or unparseable line leaves the defaults
`("(empty)", 0)`. -/
def slotEntry (lines : List (List Char)) (idx : Nat) : FileEntry :=
  match lines.find? (fun ln => startswith ln (idxPat idx)) with
  | none => ⟨idx, "(empty)".toList, 0⟩
  | some ln =>
    match tryParseLine ln with
    | some r => ⟨idx, r.1, r.2⟩
    | none => ⟨idx, "(empty)".toList, 0⟩

/-- `lines = [ln.strip() for ln in txt.splitlines() if ln.strip()]`. -/
def parsedLines (txt : List Char) : List (List Char) :=
  (splitlines txt).filterMap (fun ln =>
    let t := pystrip ln
    if t.isEmpty then none else some t)

/-- The listing `refresh_files` builds from the filtered response text:
one entry per slot index `1 .. FILE_COUNT`, in order. -/
def listing_of (txt : List Char) : List FileEntry :=
  (List.range FILE_COUNT).map (fun i => slotEntry (parsedLines txt) (i + 1))

/-- State of the underlying `serial.Serial` handle. -/
structure PortState where
  isOpen : Bool
deriving DecidableEq

/-- `SerialClient` state: `ser` is `None` or a handle (`port`, `baud` and
`timeout` never influence the modelled behaviour and are omitted). -/
structure SerialClient where
  ser : Option PortState
deriving DecidableEq

/-- `SerialClient.is_open`: `self.ser is not None and self.ser.is_open`. -/
def is_open (c : SerialClient) : Bool :=
  match c.ser with
  | none => false
  | some p => p.isOpen

/-- An access to the serial transport performed by `send_line`. -/
inductive TransportOp where
  | resetInput
  | writeBytes (bs : List Nat)
  | readWindow
deriving DecidableEq

/-- `(line + '\n').encode('utf-8', errors='ignore')`, for the ASCII lines
the protocol produces (where UTF-8 bytes coincide with codepoints). -/
def encodeLine (line : List Char) : List Nat :=
  (line ++ ['\n']).map Char.toNat

/-- `SerialClient.send_line`: when the connection is not open, return the
empty byte string without touching the transport; otherwise clear unread
input, write the newline-terminated line, and poll the input for the fixed
read window.  `resp` stands for whatever bytes the device delivers inside
that window; the polling loop's net effect is to accumulate exactly
those. -/
def send_line (c : SerialClient) (line : List Char) (resp : List Nat) :
    List Nat × List TransportOp :=
  if is_open c = false then ([], [])
  else (resp, [TransportOp.resetInput, TransportOp.writeBytes (encodeLine line),
               TransportOp.readWindow])

/-- `ModernEEPROM.refresh_files`: early return (`none`, widgets untouched)
when not connected; otherwise send `LIST`, filter the raw bytes through
`bytes_to_text`, and rebuild the listing.  The result is the list the tree
widget is filled with. -/
def refresh_files (c : SerialClient) (resp : List Nat) :
    Option (List FileEntry) × List TransportOp :=
  if is_open c = false then (none, [])
  else
    let r := send_line c "LIST".toList resp
    (some (listing_of (bytes_to_text r.1)), r.2)

/-- `ModernEEPROM.read_selected`: no selection or no connection returns
without transport access; otherwise send `READ <idx>` and place the
unescaped filtered response in the editor (the returned text). -/
def read_selected (c : SerialClient) (idx : Option Nat) (resp : List Nat) :
    Option (List Char) × List TransportOp :=
  match idx with
  | none => (none, [])
  | some i =>
    if is_open c = false then (none, [])
    else
      let r := send_line c ("READ ".toList ++ natRepr i) resp
      (some (unescape_from_arduino (bytes_to_text r.1)), r.2)

/-- Python `text.rstrip('\n')`: remove every trailing line feed. -/
def rstripLF (s : List Char) : List Char :=
  (s.reverse.dropWhile (fun c => c == '\n')).reverse

/-- `ModernEEPROM.write_selected` with `text` the editor contents
(`editor.get('1.0','end')`): no selection or no connection returns without
transport access; otherwise the trailing line feeds are stripped, the rest
escaped, and `WRITE <idx> <escaped>` sent.  The result is the wire line;
the status update and follow-up `refresh_files` are rendering. -/
def write_selected (c : SerialClient) (idx : Option Nat) (text : List Char)
    (resp : List Nat) : Option (List Char) × List TransportOp :=
  match idx with
  | none => (none, [])
  | some i =>
    if is_open c = false then (none, [])
    else
      let wire := "WRITE ".toList ++ natRepr i ++ [' ']
        ++ escape_for_arduino (rstripLF text)
      let r := send_line c wire resp
      (some wire, r.2)

/-- `ModernEEPROM.rename_selected` with `newname` the dialog's answer
(`none` for cancel): no selection, no connection, or a falsy name (cancel
or empty string, Python's `if not newname: return`) returns without
transport access; otherwise `WRITE_NAME <idx> <newname[:9]>` is sent.
The result is the wire line. -/
def rename_selected (c : SerialClient) (idx : Option Nat)
    (newname : Option (List Char)) (resp : List Nat) :
    Option (List Char) × List TransportOp :=
  match idx with
  | none => (none, [])
  | some i =>
    if is_open c = false then (none, [])
    else
      match newname with
      | none => (none, [])
      | some nm =>
        if nm.isEmpty then (none, [])
        else
          let wire := "WRITE_NAME ".toList ++ natRepr i ++ [' '] ++ nm.take 9
          let r := send_line c wire resp
          (some wire, r.2)

/-- `ModernEEPROM.delete_selected` with `confirm` the yes/no dialog's
answer: no selection, no connection, or a declined confirmation returns
without transport access; otherwise `DELETE <idx>` is sent. -/
def delete_selected (c : SerialClient) (idx : Option Nat) (confirm : Bool)
    (resp : List Nat) : Option (List Char) × List TransportOp :=
  match idx with
  | none => (none, [])
  | some i =>
    if is_open c = false then (none, [])
    else if confirm = false then (none, [])
    else
      let wire := "DELETE ".toList ++ natRepr i
      let r := send_line c wire resp
      (some wire, r.2)

/-- An observable step of `SerialClient.connect` / `SerialClient.close`. -/
inductive ConnectEvent where
  | closePort
  | openPort
  | sleepMs (ms : Nat)
  | clearInput
deriving DecidableEq

/-- `SerialClient.close`: close the handle when one is open, then drop it;
idempotent. -/
def close (c : SerialClient) : SerialClient × List ConnectEvent :=
  (⟨none⟩,
   if (match c.ser with | some p => p.isOpen | none => false)
   then [ConnectEvent.closePort] else [])

/-- `SerialClient.connect` (success path; a failing `serial.Serial` call
raises before any further step and leaves no handle): an existing handle
is closed first, then the port is opened, then `time.sleep(0.15)` runs,
then `reset_input_buffer()` clears stale input — in that source order. -/
def connect (c : SerialClient) : SerialClient × List ConnectEvent :=
  let pre := if c.ser.isSome then (close c).2 else []
  (⟨some ⟨true⟩⟩,
   pre ++ [ConnectEvent.openPort, ConnectEvent.sleepMs 150, ConnectEvent.clearInput])

/-- A client whose handle is open, as after a successful `connect`. -/
def openClient : SerialClient :=
  ⟨some ⟨true⟩⟩

/-- A client with no handle, as after `close` or before any `connect`. -/
def closedClient : SerialClient :=
  ⟨none⟩

/-- ASCII text as raw response bytes. -/
def strToBytes (s : String) : List Nat :=
  s.toList.map Char.toNat

/-- What escaping does to a single character (the composed effect of the
three `replace` passes). -/
def escChar (c : Char) : List Char :=
  if c = '\\' then ['\\', '\\']
  else if c = '\n' then ['\\', 'n']
  else if c = '\r' then ['\\', 'r']
  else [c]

theorem replace1_append (old : Char) (new a b : List Char) :
    replace1 old new (a ++ b) = replace1 old new a ++ replace1 old new b := by
  induction a with
  | nil => rfl
  | cons c a ih => simp [replace1, ih]

theorem escape_nil : escape_for_arduino [] = [] := rfl

theorem escape_cons (c : Char) (s : List Char) :
    escape_for_arduino (c :: s) = escChar c ++ escape_for_arduino s := by
  show replace1 '\r' ['\\', 'r'] (replace1 '\n' ['\\', 'n']
      (replace1 '\\' ['\\', '\\'] (c :: s))) = _
  rw [show replace1 '\\' ['\\', '\\'] (c :: s)
      = (if c = '\\' then ['\\', '\\'] else [c]) ++ replace1 '\\' ['\\', '\\'] s from rfl]
  rw [replace1_append, replace1_append]
  by_cases h1 : c = '\\'
  · subst h1
    simp [escChar, replace1, escape_for_arduino]
  · by_cases h2 : c = '\n'
    · subst h2
      simp [escChar, replace1, escape_for_arduino]
    · by_cases h3 : c = '\r'
      · subst h3
        simp [escChar, replace1, escape_for_arduino]
      · simp [escChar, replace1, escape_for_arduino, h1, h2, h3]

theorem unescape_pair (c : Char) (rest : List Char) :
    unescape_from_arduino ('\\' :: c :: rest) =
      (if c = 'n' then '\n'
       else if c = 'r' then '\r'
       else if c = '\\' then '\\'
       else c) :: unescape_from_arduino rest := by
  simp [unescape_from_arduino]

theorem unescape_cons_of_ne (c : Char) (h : c ≠ '\\') (t : List Char) :
    unescape_from_arduino (c :: t) = c :: unescape_from_arduino t := by
  cases t with
  | nil => rfl
  | cons d t' => simp [unescape_from_arduino, h]

theorem unescape_escChar (c : Char) (t : List Char) :
    unescape_from_arduino (escChar c ++ t) = c :: unescape_from_arduino t := by
  by_cases h1 : c = '\\'
  · subst h1
    simp [escChar, unescape_pair]
  · by_cases h2 : c = '\n'
    · subst h2
      simp [escChar, unescape_pair]
    · by_cases h3 : c = '\r'
      · subst h3
        simp [escChar, unescape_pair]
      · simp only [escChar, if_neg h1, if_neg h2, if_neg h3, List.singleton_append]
        exact unescape_cons_of_ne c h1 t

theorem unescape_escape (s : List Char) :
    unescape_from_arduino (escape_for_arduino s) = s := by
  induction s with
  | nil => rfl
  | cons c s ih => rw [escape_cons, unescape_escChar, ih]

theorem find?_append_skip {α : Type} (p : α → Bool) (g : α) (h : p g = false)
    (l1 l2 : List α) : List.find? p (l1 ++ g :: l2) = List.find? p (l1 ++ l2) := by
  induction l1 with
  | nil => simp [List.find?_cons, h]
  | cons a l1 ih => simp [List.find?_cons, ih]

theorem head?_dropWhile_false {α : Type} (p : α → Bool) (l : List α) (a : α)
    (h : (l.dropWhile p).head? = some a) : p a = false := by
  induction l with
  | nil => simp at h
  | cons b l ih =>
    rw [List.dropWhile_cons] at h
    by_cases hb : p b = true
    · exact ih (by simpa [hb] using h)
    · simp [hb] at h
      subst h
      simpa using hb

theorem rstripLF_last_ne (t : List Char) :
    (rstripLF t).getLast? ≠ some '\n' := by
  intro h
  rw [rstripLF, List.getLast?_reverse] at h
  have := head?_dropWhile_false (fun c => c == '\n') t.reverse '\n' h
  simp at this

/-- C1: for every string `s` composed of printable characters, line feed,
and carriage return (no raw control characters outside LF and CR),
`unescape_from_arduino (escape_for_arduino s) = s`. -/
theorem C1_escape_roundtrip (s : List Char)
    (_h : ∀ c ∈ s, (32 ≤ c.toNat ∧ c.toNat ≤ 126) ∨ c = '\n' ∨ c = '\r') :
    unescape_from_arduino (escape_for_arduino s) = s :=
  unescape_escape s

/-- Witness for C1 at the concrete string `ab\c` + LF + `d` + CR + `e`. -/
theorem C1_escape_roundtrip_witness :
    unescape_from_arduino (escape_for_arduino "ab\\c\nd\re".toList) = "ab\\c\nd\re".toList :=
  C1_escape_roundtrip "ab\\c\nd\re".toList (by decide)

/-- C2: on the response `1: notes (12 bytes)`, `2: (empty)`, `3: todo
(5 bytes)`, the listing parse of `refresh_files` yields exactly the
entries (1, notes, 12), (2, `(empty)`, 0), (3, todo, 5) in that order;
and a slot whose index matches no line reports `(empty)` with size 0. -/
theorem C2_listing_parse :
    (refresh_files openClient
        (strToBytes "1: notes (12 bytes)\n2: (empty)\n3: todo (5 bytes)")).1 =
      some [⟨1, "notes".toList, 12⟩, ⟨2, "(empty)".toList, 0⟩, ⟨3, "todo".toList, 5⟩] ∧
    (refresh_files openClient (strToBytes "3: todo (5 bytes)")).1 =
      some [⟨1, "(empty)".toList, 0⟩, ⟨2, "(empty)".toList, 0⟩, ⟨3, "todo".toList, 5⟩] :=
  ⟨by decide, by decide⟩

/-- C3: `bytes_to_text` keeps exactly the bytes in `32..126` plus line
feed 10, in order, and drops every other byte; on
`[72, 101, 0, 10, 127, 108, 108, 111]` it yields `He` + LF + `llo`. -/
theorem C3_bytes_to_text_filter (b : List Nat) :
    bytes_to_text b =
      (b.filter (fun x => decide ((32 ≤ x ∧ x ≤ 126) ∨ x = 10))).map Char.ofNat ∧
    bytes_to_text [72, 101, 0, 10, 127, 108, 108, 111] = "He\nllo".toList := by
  refine ⟨?_, by decide⟩
  induction b with
  | nil => rfl
  | cons x b ih =>
    by_cases h : (32 ≤ x ∧ x ≤ 126) ∨ x = 10
    · simp only [bytes_to_text, List.map_cons, List.flatten_cons, List.filter_cons] at ih ⊢
      simp [h, ih]
    · simp only [bytes_to_text, List.map_cons, List.flatten_cons, List.filter_cons] at ih ⊢
      simp [h, ih]

/-- Witness for C3 at the concrete byte list `[13, 72, 10]`. -/
theorem C3_bytes_to_text_filter_witness :
    bytes_to_text [13, 72, 10] =
      (([13, 72, 10].filter
          (fun x => decide ((32 ≤ x ∧ x ≤ 126) ∨ x = 10))).map Char.ofNat) :=
  (C3_bytes_to_text_filter [13, 72, 10]).1

/-- C4: every file operation invoked while the connection is not open
returns an empty or default result with no access to the serial transport
(the returned trace is empty); in particular `send_line` returns the
empty byte string. -/
theorem C4_no_connection_noop (c : SerialClient) (h : is_open c = false) :
    (∀ line resp, send_line c line resp = ([], [])) ∧
    (∀ resp, refresh_files c resp = (none, [])) ∧
    (∀ idx resp, read_selected c idx resp = (none, [])) ∧
    (∀ idx text resp, write_selected c idx text resp = (none, [])) ∧
    (∀ idx nm resp, rename_selected c idx nm resp = (none, [])) ∧
    (∀ idx confirm resp, delete_selected c idx confirm resp = (none, [])) := by
  refine ⟨fun line resp => ?_, fun resp => ?_, fun idx resp => ?_,
    fun idx text resp => ?_, fun idx nm resp => ?_, fun idx confirm resp => ?_⟩
  · simp [send_line, h]
  · simp [refresh_files, h]
  · cases idx <;> simp [read_selected, h]
  · cases idx <;> simp [write_selected, h]
  · cases idx <;> simp [rename_selected, h]
  · cases idx <;> simp [delete_selected, h]

/-- Witness for C4 on the disconnected client. -/
theorem C4_no_connection_noop_witness :
    is_open closedClient = false ∧
    send_line closedClient "LIST".toList [65] = ([], []) ∧
    refresh_files closedClient [65] = (none, []) :=
  ⟨rfl, (C4_no_connection_noop closedClient rfl).1 "LIST".toList [65],
    (C4_no_connection_noop closedClient rfl).2.1 [65]⟩

/-- C5: a malformed or unrelated listing line is skipped individually:
inserting a line that matches no slot pattern leaves every slot's parsed
entry unchanged, and the concrete response with `OK` between the valid
lines still parses the matching indices correctly. -/
theorem C5_listing_garbage (l1 l2 : List (List Char)) (g : List Char) (idx : Nat)
    (h : startswith g (idxPat idx) = false) :
    slotEntry (l1 ++ g :: l2) idx = slotEntry (l1 ++ l2) idx ∧
    (refresh_files openClient
        (strToBytes "1: notes (12 bytes)\nOK\n3: todo (5 bytes)")).1 =
      some [⟨1, "notes".toList, 12⟩, ⟨2, "(empty)".toList, 0⟩, ⟨3, "todo".toList, 5⟩] := by
  refine ⟨?_, by decide⟩
  unfold slotEntry
  rw [find?_append_skip _ g h]

/-- Witness for C5: dropping the line `OK` in front of an empty tail does
not change slot 1's entry. -/
theorem C5_listing_garbage_witness :
    slotEntry ([] ++ "OK".toList :: []) 1 = slotEntry ([] ++ []) 1 :=
  (C5_listing_garbage [] [] "OK".toList 1 (by decide)).1

/-- C6: escaping the two-character string backslash-n differs from
escaping the one-character line feed, and each unescapes back to its
original — the backslash pass runs before the newline pass. -/
theorem C6_escape_ordering :
    escape_for_arduino "\\n".toList ≠ escape_for_arduino "\n".toList ∧
    unescape_from_arduino (escape_for_arduino "\\n".toList) = "\\n".toList ∧
    unescape_from_arduino (escape_for_arduino "\n".toList) = "\n".toList :=
  ⟨by decide, by decide, by decide⟩

/-- C7: `unescape_from_arduino` is permissive: a backslash followed by a
character decodes `n` to LF, `r` to CR, backslash to backslash, and any
other character to itself, never failing; and a string whose lone
backslash sits in final position keeps that backslash literally. -/
theorem C7_unescape_permissive (c : Char) (rest : List Char) :
    unescape_from_arduino ('\\' :: c :: rest) =
      (if c = 'n' then '\n'
       else if c = 'r' then '\r'
       else if c = '\\' then '\\'
       else c) :: unescape_from_arduino rest ∧
    (∀ t : List Char, '\\' ∉ t →
      unescape_from_arduino (t ++ ['\\']) = t ++ ['\\']) := by
  refine ⟨unescape_pair c rest, ?_⟩
  intro t ht
  induction t with
  | nil => rfl
  | cons a t ih =>
    have ha : a ≠ '\\' := fun e => ht (e ▸ List.mem_cons_self a t)
    rw [List.cons_append, unescape_cons_of_ne a ha,
      ih (fun m => ht (List.mem_cons_of_mem a m))]

/-- Witness for C7 at the concrete string `ab` followed by a lone
trailing backslash. -/
theorem C7_unescape_permissive_witness :
    unescape_from_arduino ("ab".toList ++ ['\\']) = "ab".toList ++ ['\\'] :=
  (C7_unescape_permissive 'q' []).2 "ab".toList (by decide)

/-- C8 counterexample: with the empty name (a falsy dialog answer), the
rename operation sends nothing at all — `if not newname: return` fires —
so no `WRITE_NAME 1 ` wire line is produced, refuting the claim's
universal quantification over every name. -/
theorem C8_rename_empty_cex :
    (rename_selected openClient (some 1) (some "".toList) []).1 ≠
      some ("WRITE_NAME ".toList ++ natRepr 1 ++ [' '] ++ ("".toList).take 9) := by
  decide

/-- C8 (amended): for every index and every nonempty name, the wire line
sent is `WRITE_NAME <i> <first 9 characters of name>`; in particular the
name argument for `verylongfilename` has exactly 9 characters. -/
theorem C8_rename_truncates (c : SerialClient) (h : is_open c = true) (i : Nat)
    (nm : List Char) (hn : nm ≠ []) (resp : List Nat) :
    (rename_selected c (some i) (some nm) resp).1 =
      some ("WRITE_NAME ".toList ++ natRepr i ++ [' '] ++ nm.take 9) ∧
    ("verylongfilename".toList.take 9).length = 9 := by
  have he : nm.isEmpty = false := by
    cases nm with
    | nil => exact absurd rfl hn
    | cons a t => rfl
  exact ⟨by simp [rename_selected, h, he], by decide⟩

/-- Witness for C8 (amended) at index 1 and the name `verylongfilename`. -/
theorem C8_rename_truncates_witness :
    (rename_selected openClient (some 1) (some "verylongfilename".toList) []).1 =
      some ("WRITE_NAME ".toList ++ natRepr 1 ++ [' ']
        ++ "verylongfilename".toList.take 9) ∧
    ("verylongfilename".toList.take 9).length = 9 :=
  C8_rename_truncates openClient rfl 1 "verylongfilename".toList (by decide) []

/-- C9 counterexample: `connect` on a fresh client produces the event
order open, sleep 150 ms, clear input — not the claimed order open, clear
input, sleep. -/
theorem C9_connect_order_cex :
    (connect closedClient).2 ≠
      [ConnectEvent.openPort, ConnectEvent.clearInput, ConnectEvent.sleepMs 150] := by
  decide

/-- C9 (amended): `connect` first closes an already-open connection, then
opens the transport, then waits the fixed 150 ms settle delay, and only
then clears stale input — sleep before clear. -/
theorem C9_connect_order (c : SerialClient) :
    (connect c).1 = openClient ∧
    (c.ser = none →
      (connect c).2 = [ConnectEvent.openPort, ConnectEvent.sleepMs 150,
        ConnectEvent.clearInput]) ∧
    (∀ p : PortState, c.ser = some p → p.isOpen = true →
      (connect c).2 = [ConnectEvent.closePort, ConnectEvent.openPort,
        ConnectEvent.sleepMs 150, ConnectEvent.clearInput]) := by
  refine ⟨rfl, fun hn => ?_, fun p hp hopen => ?_⟩
  · simp [connect, hn]
  · simp [connect, close, hp, hopen]

/-- Witness for C9 (amended): reconnecting an open client closes it
first, then opens, sleeps, and clears, in that order. -/
theorem C9_connect_order_witness :
    (connect openClient).2 = [ConnectEvent.closePort, ConnectEvent.openPort,
      ConnectEvent.sleepMs 150, ConnectEvent.clearInput] :=
  (C9_connect_order openClient).2.2 ⟨true⟩ rfl rfl

/-- C10: the write operation strips all trailing line feeds from the
editor text before escaping: the payload sent is
`escape_for_arduino (rstripLF text)`, whose read-back unescapes to
`rstripLF text`, which never ends in a line feed — so a write followed by
a read never reproduces trailing newlines. -/
theorem C10_write_strips_trailing (c : SerialClient) (h : is_open c = true)
    (i : Nat) (text : List Char) (resp : List Nat) :
    (write_selected c (some i) text resp).1 =
      some ("WRITE ".toList ++ natRepr i ++ [' ']
        ++ escape_for_arduino (rstripLF text)) ∧
    unescape_from_arduino (escape_for_arduino (rstripLF text)) = rstripLF text ∧
    (rstripLF text).getLast? ≠ some '\n' :=
  ⟨by simp [write_selected, h], unescape_escape (rstripLF text), rstripLF_last_ne text⟩

/-- Witness for C10 at index 2 and the editor text `hi` + LF + LF. -/
theorem C10_write_strips_trailing_witness :
    (write_selected openClient (some 2) "hi\n\n".toList []).1 =
      some ("WRITE ".toList ++ natRepr 2 ++ [' ']
        ++ escape_for_arduino (rstripLF "hi\n\n".toList)) ∧
    unescape_from_arduino (escape_for_arduino (rstripLF "hi\n\n".toList)) =
      rstripLF "hi\n\n".toList ∧
    (rstripLF "hi\n\n".toList).getLast? ≠ some '\n' :=
  C10_write_strips_trailing openClient rfl 2 "hi\n\n".toList []

end EEPROMFS
